import Mathlib

/-!
# WUMaCat — Light-Curve Folding and Eclipse-Epoch Estimation Engine

A shallow embedding of the core of the repository:

* `src/scripts/create_lc_for_elisa.py` — `find_jdmin` (Gaussian-fit epoch
  estimation) and `fold_and_normalize_lightcurves` (the per-object batch loop
  that folds and normalizes TESS light curves);
* `src/scripts/take_epoch_from_vsx.py` — `take_epoch_from_vsx` (external-epoch
  retrieval from the VSX catalog).

Floats are modelled by `ℚ` (NaN/missing values are encoded by `Option`).
The nonlinear solver inside `scipy.optimize.curve_fit` is modelled by an
oracle (`FitOutcome`) indexed by attempt number; the deterministic part of
`curve_fit`'s interface — raising `TypeError` when the data has fewer points
than the 3 model parameters, raising `RuntimeError` on non-convergence — is
embedded concretely, as is all surrounding control flow.  The phase sort of
`output_table.sort('phase')` (astropy `Table.sort` → numpy `argsort` with
default `kind='quicksort'`, which is not stable) is likewise modelled by an
implementation parameter constrained only to produce a phase-sorted
permutation (`phaseSortImpl`): the equal-phase tie order is left
unspecified, exactly as the library leaves it.
-/

set_option allowUnsafeReducibility true
attribute [semireducible] Rat.add Rat.sub Rat.mul Rat.inv Rat.ofScientific

namespace WUMaCat

/-- Object identifiers.  The source uses name strings; the engine uses only
their equality (the row mask `input_table['name'] == name`) and a total
order (`np.unique` returns the sorted distinct names), so names are
modelled by a linearly ordered type of codes. -/
abbrev ObjName := ℕ

/-- One sample of a light curve: a row `(jd, flux)` of the per-object table. -/
structure Sample where
  jd : ℚ
  flux : ℚ
  deriving DecidableEq, Repr

/-- `np.max` over a nonempty list of values (`table['flux'].max()`).
The empty-list default is irrelevant: the scripts only reach it with
nonempty tables. -/
def maxQ : List ℚ → ℚ
  | [] => 0
  | x :: xs => xs.foldl max x

/-- `np.argmax`: index of the first occurrence of the maximum value. -/
def argmaxIdx : List ℚ → Nat
  | [] => 0
  | x :: xs =>
    (xs.foldl
      (fun (acc : Nat × Nat × ℚ) v =>
        if acc.2.2 < v then (acc.1 + 1, acc.1, v) else (acc.1 + 1, acc.2.1, acc.2.2))
      (1, 0, x)).2.1

/-- Outcome of one invocation of the nonlinear least-squares solver inside
`scipy.optimize.curve_fit`: either it converges to parameters
`(a, x0, sigma)` of the Gaussian, or the iteration diverges
(scipy raises `RuntimeError`). -/
inductive FitOutcome where
  | converged (a x0 sigma : ℚ)
  | diverged
  deriving DecidableEq, Repr

/-- Python exceptions that can escape `curve_fit` in `find_jdmin`. -/
inductive PyError where
  | typeError
  | runtimeError
  deriving DecidableEq, Repr

/-- `scipy.optimize.curve_fit(gaussian, xdata, ydata, p0)`: raises
`TypeError` when the number of data points is smaller than the number of
model parameters (3 for the Gaussian), raises `RuntimeError` when the
least-squares iteration does not converge (oracle `outcome`), otherwise
returns the optimal parameters. `p0` is the initial guess (consumed by the
solver; kept for interface fidelity). -/
def curveFit (outcome : FitOutcome) (xdata ydata : List ℚ) (p0 : ℚ × ℚ × ℚ) :
    Except PyError (ℚ × ℚ × ℚ) :=
  if xdata.length < 3 then .error .typeError
  else
    match outcome with
    | .converged a x0 sigma => .ok (a, x0, sigma)
    | .diverged => .error .runtimeError

/-- The inverted flux signal `y = table['flux'].max() - table['flux']`
of `find_jdmin`. -/
def invertedFlux (table : List Sample) : List ℚ :=
  (table.map Sample.flux).map (fun f => maxQ (table.map Sample.flux) - f)

/-- `x[np.argmax(y)]` in `find_jdmin`: the time of maximum inverted flux
(= the first sample of minimum flux). -/
def jdOfMaxInverted (table : List Sample) : ℚ :=
  (table.map Sample.jd).getD (argmaxIdx (invertedFlux table)) 0

/-- The fit-window mask of `find_jdmin`:
`mask = (x > guess - 0.2*period) & (x < guess + 0.2*period)` applied to the
samples, where `guess` is the time of maximum inverted flux. -/
def windowMask (table : List Sample) (period : ℚ) : List Sample :=
  let loc := jdOfMaxInverted table
  table.filter fun s =>
    decide (loc - 0.2 * period < s.jd) && decide (s.jd < loc + 0.2 * period)

/-- `find_jdmin(table, period)` from `create_lc_for_elisa.py`:
builds the inverted signal, the initial guess
`[max(y), x[argmax(y)], 0.2*period]`, restricts to the window, and fits the
Gaussian.  `except RuntimeError: return None` is embedded as `.ok none`;
every other exception (in particular the `TypeError` from too few data
points) propagates as `.error`. `solver n` is the oracle outcome of the
`n`-th fit attempt; the code performs a single attempt, `solver 0`. -/
def findJdmin (solver : Nat → FitOutcome) (table : List Sample) (period : ℚ) :
    Except PyError (Option ℚ) :=
  let y := invertedFlux table
  let guess : ℚ × ℚ × ℚ := (maxQ y, jdOfMaxInverted table, 0.2 * period)
  let w := windowMask table period
  let xfit := w.map Sample.jd
  let yfit := w.map fun s => maxQ (table.map Sample.flux) - s.flux
  match curveFit (solver 0) xfit yfit guess with
  | .ok popt => .ok (some popt.2.1)
  | .error .runtimeError => .ok none
  | .error .typeError => .error .typeError

/-- One row of the output table `[jd, flux, phase, normalized_flux]`. -/
structure OutRow where
  jd : ℚ
  flux : ℚ
  phase : ℚ
  nflux : ℚ
  deriving DecidableEq, Repr

/-- numpy `x % 1` for the scalar case: the remainder has the sign of the
divisor `1`, i.e. it is the fractional part, in `[0, 1)`. -/
def pyMod1 (x : ℚ) : ℚ := Int.fract x

/-- `phase = ((jd - jd_min) / period) % 1` (line 124). -/
def phaseOf (jd jdmin period : ℚ) : ℚ := pyMod1 ((jd - jdmin) / period)

/-- `phase[phase < 0] = 1 + phase[phase < 0]` (line 125), applied to one
entry. -/
def fixNegative (p : ℚ) : ℚ := if p < 0 then 1 + p else p

/-- The rows of the output table before sorting: per sample, the phase
(lines 124–125) and `normalized_flux = flux / np.max(flux)` (line 126),
with the global flux maximum computed once for the object's series. -/
def foldedRows (series : List Sample) (period jdmin : ℚ) : List OutRow :=
  let fmax := maxQ (series.map Sample.flux)
  series.map fun s =>
    { jd := s.jd, flux := s.flux
      phase := fixNegative (phaseOf s.jd jdmin period)
      nflux := s.flux / fmax }

/-- The comparison key of `output_table.sort('phase')`. -/
def byPhase (a b : OutRow) : Prop := a.phase ≤ b.phase

instance : DecidableRel byPhase := fun a b =>
  inferInstanceAs (Decidable (a.phase ≤ b.phase))

instance : IsTotal OutRow byPhase := ⟨fun a b => le_total a.phase b.phase⟩

instance : IsTrans OutRow byPhase := ⟨fun _ _ _ h h2 => le_trans h h2⟩

/-- What `output_table.sort('phase')` (astropy `Table.sort`, which calls
numpy `argsort` with its default `kind='quicksort'`) guarantees of its
result: a permutation of the input rows whose phase column is
non-decreasing.  Quicksort is NOT stable — the relative order of
equal-phase rows is unspecified — so the sort is modelled by an arbitrary
implementation `sorter` constrained only by this predicate. -/
def phaseSortImpl (sorter : List OutRow → List OutRow) : Prop :=
  ∀ l, List.Perm (sorter l) l ∧ (sorter l).Pairwise byPhase

/-- Lines 122–130 of `create_lc_for_elisa.py`: fold, normalize and sort by
phase, with the sort's unspecified tie order supplied as the
implementation parameter `sorter` (see `phaseSortImpl`). -/
def foldNormalize (sorter : List OutRow → List OutRow)
    (series : List Sample) (period jdmin : ℚ) : List OutRow :=
  sorter (foldedRows series period jdmin)

/-- One row of the input manifest table of `fold_and_normalize_lightcurves`.
`period` is the value of the period column (`none` models a missing or NaN
value, exactly the `period is None or np.isnan(period)` test of line 110);
`jdMin` is the external-epoch column written by `take_epoch_from_vsx` — the
folding script never reads it. -/
structure Row where
  name : ObjName
  period : Option ℚ
  jdMin : Option ℚ
  deriving DecidableEq, Repr

/-- The per-object Output Curve artifact: the sorted output table plus the
metadata `output_table.meta['jd_min']` and `output_table.meta['period']`. -/
structure Curve where
  objName : ObjName
  rows : List OutRow
  metaJdMin : ℚ
  metaPeriod : ℚ
  deriving DecidableEq, Repr

/-- `input_table[input_table['name'] == name][0]` (lines 84–85): the first
row of the manifest carrying the given name. -/
def firstRowNamed (manifest : List Row) (n : ObjName) : Option Row :=
  (manifest.filter fun r => decide (r.name = n)).head?

/-- The body of the per-object loop (lines 83–136).  `lcFiles n` is the
per-object light-curve series (`none` models the object-scoped skip
conditions of lines 89–108: no matching file, several-files fallback
failing to read, unreadable or wrongly formatted file).  `.ok none` is a
`continue` (object skipped), `.ok (some c)` a written Output Curve, and
`.error e` an exception escaping the loop body (the per-object handler of
line 138 catches only `FileNotFoundError`, so a `TypeError` from
`curve_fit` propagates). -/
def processName (sorter : List OutRow → List OutRow) (manifest : List Row)
    (lcFiles : ObjName → Option (List Sample))
    (solver : ObjName → Nat → FitOutcome) (n : ObjName) :
    Except PyError (Option Curve) :=
  match firstRowNamed manifest n with
  | none => .ok none
  | some row =>
    match lcFiles n with
    | none => .ok none
    | some series =>
      match row.period with
      | none => .ok none
      | some p =>
        match findJdmin (solver n) series p with
        | .error e => .error e
        | .ok none => .ok none
        | .ok (some jm) =>
          .ok (some { objName := n, rows := foldNormalize sorter series p jm
                      metaJdMin := jm, metaPeriod := p })

/-- Result of a batch run. `finished curves processed` models a normal
return of the list `processed_objects` (with `curves` the Output Curve
files written along the way); `aborted curves processed` models an
exception reaching the outer handler of lines 144–146 — the function
returns `None`, and only the objects processed *before* the failing one
have had their curves written. -/
inductive BatchResult where
  | finished (curves : List Curve) (processed : List ObjName)
  | aborted (curves : List Curve) (processed : List ObjName)
  deriving DecidableEq, Repr

/-- The curves written during the batch run. -/
def curvesOf : BatchResult → List Curve
  | .finished cs _ => cs
  | .aborted cs _ => cs

/-- The names accumulated in `processed_objects` during the batch run. -/
def processedOf : BatchResult → List ObjName
  | .finished _ ps => ps
  | .aborted _ ps => ps

/-- The Python return value of `fold_and_normalize_lightcurves`: the
`processed_objects` list, or `None` when an exception reached the outer
handler. -/
def retValue : BatchResult → Option (List ObjName)
  | .finished _ ps => some ps
  | .aborted _ _ => none

/-- The `for name in unique_names` loop (lines 83–142), iterating over an
explicit list of names. -/
def goNames (sorter : List OutRow → List OutRow) (manifest : List Row)
    (lcFiles : ObjName → Option (List Sample))
    (solver : ObjName → Nat → FitOutcome) : List ObjName → BatchResult
  | [] => .finished [] []
  | n :: rest =>
    match processName sorter manifest lcFiles solver n with
    | .error _ => .aborted [] []
    | .ok none => goNames sorter manifest lcFiles solver rest
    | .ok (some c) =>
      match goNames sorter manifest lcFiles solver rest with
      | .finished cs ps => .finished (c :: cs) (n :: ps)
      | .aborted cs ps => .aborted (c :: cs) (n :: ps)

/-- `np.unique` on a string column: the sorted list of distinct values. -/
def npUnique (l : List ObjName) : List ObjName :=
  (l.insertionSort (· ≤ ·)).dedup

/-- `fold_and_normalize_lightcurves` after the manifest has been read and
its `name`/period columns validated (lines 78–146): iterate over
`np.unique(input_table['name'])`. -/
def processBatch (sorter : List OutRow → List OutRow) (manifest : List Row)
    (lcFiles : ObjName → Option (List Sample))
    (solver : ObjName → Nat → FitOutcome) : BatchResult :=
  goNames sorter manifest lcFiles solver (npUnique (manifest.map Row.name))

/-- The manifest with only the first row of each name kept (used to state
that duplicate rows have no effect). -/
def dedupByName : List Row → List Row
  | [] => []
  | r :: rest => r :: dedupByName (rest.filter fun r2 => decide (r2.name ≠ r.name))
termination_by l => l.length
decreasing_by
  simpa using Nat.lt_succ_of_le (List.length_filter_le _ rest)

/-- One row of the input table of `take_epoch_from_vsx` (further columns of
the real table are never touched by the function and are omitted). -/
structure VRow where
  name : ObjName
  jdMin : Option ℚ
  deriving DecidableEq, Repr

/-- One iteration of the query loop of `take_epoch_from_vsx`
(lines 50–66): when the Vizier query for the object name yields an epoch
`v`, the code executes `input_table['jd_min'] = jd_min - 2450000`, which
assigns the scalar to the ENTIRE column (every row), despite the adjacent
comment `# Assign directly to the row`; on no result or a query error the
table is left unchanged (`continue`). -/
def vsxQueryStep (query : ObjName → Option ℚ) (table : List VRow) (n : ObjName) :
    List VRow :=
  match query n with
  | some v => table.map fun r => { r with jdMin := some (v - 2450000) }
  | none => table

/-- `take_epoch_from_vsx` after input validation (lines 45–72): initialize
the `jd_min` column to `None`, then loop over the rows by index, querying
each row's name (the `name` column is never modified, so the queried names
are those of the input table). -/
def takeEpochFromVsx (query : ObjName → Option ℚ) (table : List VRow) :
    List VRow :=
  (table.map VRow.name).foldl (vsxQueryStep query)
    (table.map fun r => { r with jdMin := none })

instance : DecidableEq (Except PyError (Option Curve)) := fun a b =>
  match a, b with
  | .ok x, .ok y => decidable_of_iff (x = y) (by simp)
  | .error x, .error y => decidable_of_iff (x = y) (by simp)
  | .ok _, .error _ => isFalse (by simp)
  | .error _, .ok _ => isFalse (by simp)

/-! ### Concrete test inputs

Small concrete series, manifests and solver oracles used by the concrete
evaluations below. -/

/-- A well-behaved 3-sample series with a flux dip at its middle sample:
all three samples fall inside the fit window for period 1. -/
def series3 : List Sample := [⟨0, 1⟩, ⟨1/20, 1/5⟩, ⟨1/10, 1⟩]

/-- A light-curve directory resolving every object to `series3`. -/
def stdFiles : ObjName → Option (List Sample) := fun _ => some series3

/-- A solver oracle that always converges to location 42. -/
def stdSolver : ObjName → Nat → FitOutcome := fun _ _ => .converged 1 42 (1/5)

/-- A solver oracle whose least-squares iteration never converges. -/
def divSolver : ObjName → Nat → FitOutcome := fun _ _ => .diverged

/-- The Output Curve produced for `series3`, period 1, with a fit
converging to 42. -/
def curve42 (n : ObjName) : Curve :=
  { objName := n
    rows := [⟨0, 1, 0, 1⟩, ⟨1/20, 1/5, 1/20, 1/5⟩, ⟨1/10, 1, 1/10, 1⟩]
    metaJdMin := 42, metaPeriod := 1 }

/-- The §8 end-to-end example series:
`t = [0, 0.25, 0.5, 0.75, 1]`, `flux = [1, 0.6, 0.2, 0.6, 1]`. -/
def specSeries : List Sample :=
  [⟨0, 1⟩, ⟨1/4, 3/5⟩, ⟨1/2, 1/5⟩, ⟨3/4, 3/5⟩, ⟨1, 1⟩]

/-- One admissible implementation of the unspecified-tie-order phase sort
(`phaseSortImpl` holds of it, see `phaseSort_admissible`), used to evaluate
concrete batch runs.  Every concrete input evaluated below either has
pairwise-distinct phases — where `sorted_perm_eq_of_nodup_phases` shows all
admissible implementations produce the identical output — or is only
inspected through tie-insensitive conclusions. -/
def phaseSort : List OutRow → List OutRow :=
  List.insertionSort byPhase

/-- An admissible implementation of the phase sort that resolves the §8
equal-phase tie the other way round: on the §8 folded rows it returns the
sorted permutation with the `t = 1` row before the `t = 0` row (both at
phase 1/2), and elsewhere it sorts like `phaseSort`.  Nothing the code's
sort guarantees (a phase-sorted permutation — numpy quicksort is not
stable) distinguishes it from `phaseSort`. -/
def flipSort : List OutRow → List OutRow := fun l =>
  if l = foldedRows specSeries 1 (1/2) then
    [⟨1/2, 1/5, 0, 1/5⟩, ⟨3/4, 3/5, 1/4, 3/5⟩, ⟨1, 1, 1/2, 1⟩, ⟨0, 1, 1/2, 1⟩,
      ⟨1/4, 3/5, 3/4, 3/5⟩]
  else List.insertionSort byPhase l

/-- A perfectly flat series (constant flux 5), three samples inside the
period-1 fit window. -/
def flatSeries : List Sample := [⟨0, 5⟩, ⟨1/20, 5⟩, ⟨1/10, 5⟩]

/-- A single-sample series. -/
def oneSample : List Sample := [⟨0, 5⟩]

/-- A two-sample series (fewer points than the 3 Gaussian parameters). -/
def twoSamples : List Sample := [⟨0, 1⟩, ⟨1/20, 1/5⟩]

/-- A manifest whose single object carries a finite external epoch 100 in
its `jd_min` column. -/
def c1Manifest : List Row := [⟨0, some 1, some 100⟩]

/-- Object 0 is constant-flux; valid period. -/
def flatManifest : List Row := [⟨0, some 1, none⟩]

/-- Light-curve directory resolving every object to `flatSeries`. -/
def flatFiles : ObjName → Option (List Sample) := fun _ => some flatSeries

/-- A solver oracle converging to the middle sample's time, as the fit on a
flat (all-zero inverted) signal plausibly would. -/
def flatSolver : ObjName → Nat → FitOutcome := fun _ _ => .converged 0 (1/20) (1/5)

/-- Two objects; object 0's series has only two samples. -/
def c5Manifest : List Row := [⟨0, some 1, none⟩, ⟨1, some 1, none⟩]

/-- Object 0 resolves to the two-sample series, object 1 to `series3`. -/
def c5Files : ObjName → Option (List Sample) :=
  fun n => if n = 0 then some twoSamples else some series3

/-- Two objects; object 0 has period 0, object 1 a valid period. -/
def c7Manifest : List Row := [⟨0, some 0, none⟩, ⟨1, some 1, none⟩]

/-- Two objects with valid periods (for the fit-divergence scenario). -/
def c9Manifest : List Row := [⟨0, some 1, none⟩, ⟨1, some 1, none⟩]

/-- The solver diverges for object 0 and converges for object 1. -/
def c9Solver : ObjName → Nat → FitOutcome :=
  fun n _ => if n = 0 then .diverged else .converged 1 42 (1/5)

/-- VSX query oracle: the catalog lookup succeeds for object 0 with raw
epoch 2450001 and finds nothing for any other object. -/
def c8Query : ObjName → Option ℚ := fun n => if n = 0 then some 2450001 else none

/-! ### Helper lemmas about `maxQ` -/

theorem le_foldl_max (xs : List ℚ) (a : ℚ) : a ≤ xs.foldl max a := by
  induction xs generalizing a with
  | nil => exact le_refl a
  | cons x xs ih => exact le_trans (le_max_left a x) (ih (max a x))

theorem mem_le_foldl_max (xs : List ℚ) (a b : ℚ) (h : b ∈ xs) :
    b ≤ xs.foldl max a := by
  induction xs generalizing a with
  | nil => cases h
  | cons x xs ih =>
    rcases List.mem_cons.mp h with rfl | hb
    · exact le_trans (le_max_right a b) (le_foldl_max xs (max a b))
    · exact ih (max a x) hb

theorem maxQ_is_ub (l : List ℚ) (b : ℚ) (h : b ∈ l) : b ≤ maxQ l := by
  cases l with
  | nil => cases h
  | cons x xs =>
    rcases List.mem_cons.mp h with rfl | hb
    · exact le_foldl_max xs b
    · exact mem_le_foldl_max xs x b hb

theorem foldl_max_mem (xs : List ℚ) (a : ℚ) :
    xs.foldl max a = a ∨ xs.foldl max a ∈ xs := by
  induction xs generalizing a with
  | nil => exact Or.inl rfl
  | cons x xs ih =>
    rcases ih (max a x) with h | h
    · rcases max_choice a x with hm | hm
      · exact Or.inl (by rw [List.foldl_cons, h, hm])
      · refine Or.inr ?_
        rw [List.foldl_cons, h, hm]
        exact List.mem_cons_self x xs
    · exact Or.inr (List.mem_cons_of_mem x h)

theorem maxQ_mem (l : List ℚ) (h : l ≠ []) : maxQ l ∈ l := by
  cases l with
  | nil => exact absurd rfl h
  | cons x xs =>
    rcases foldl_max_mem xs x with h1 | h1
    · simp only [maxQ, h1]
      exact List.mem_cons_self x xs
    · simp only [maxQ]
      exact List.mem_cons_of_mem x h1

/-! ### C4 — phase range -/

/-- C4: for every sample time, every finite epoch and every finite period
> 0, the produced phase lies in `[0, 1)` (so no produced phase equals or
exceeds 1); and the fold-up step of line 125 maps any raw remainder in
`[-1, 0)` to itself plus 1. -/
theorem phase_unit_interval (t e p : ℚ) (hp : 0 < p) :
    (0 ≤ fixNegative (phaseOf t e p) ∧ fixNegative (phaseOf t e p) < 1) ∧
    ∀ r : ℚ, -1 ≤ r → r < 0 → fixNegative r = r + 1 := by
  constructor
  · have h0 : 0 ≤ phaseOf t e p := Int.fract_nonneg _
    have h1 : phaseOf t e p < 1 := Int.fract_lt_one _
    simp only [fixNegative, if_neg (not_lt.mpr h0)]
    exact ⟨h0, h1⟩
  · intro r _ h2
    simp only [fixNegative, if_pos h2]
    ring

/-- Witness for C4 at `(t, e, p) = (3, 1/2, 2)`. -/
theorem phase_unit_interval_witness :
    (0 : ℚ) < 2 ∧
    ((0 ≤ fixNegative (phaseOf 3 (1/2) 2) ∧ fixNegative (phaseOf 3 (1/2) 2) < 1) ∧
      ∀ r : ℚ, -1 ≤ r → r < 0 → fixNegative r = r + 1) :=
  ⟨two_pos, phase_unit_interval 3 (1/2) 2 two_pos⟩

/-! ### Admissible sort implementations -/

/-- `phaseSort` satisfies everything `output_table.sort('phase')`
guarantees. -/
theorem phaseSort_admissible : phaseSortImpl phaseSort := fun l =>
  ⟨List.perm_insertionSort byPhase l, List.sorted_insertionSort byPhase l⟩

/-! ### C2 — flux normalization -/

/-- C2 fails on the code: on the §8 example series (flux minimum 0.2,
maximum 1.0) the produced normalized fluxes are the values `flux / max`
(sorted by phase: `[1/5, 3/5, 1, 1, 3/5]`), and the value 0 — which the
claimed min–max map would attain at the flux minimum — never occurs. -/
theorem normalization_minmax_cex :
    ((foldNormalize phaseSort specSeries 1 (1/2)).map OutRow.nflux
        = [1/5, 3/5, 1, 1, 3/5]) ∧
    ¬ ((0 : ℚ) ∈ (foldNormalize phaseSort specSeries 1 (1/2)).map OutRow.nflux) := by
  decide

/-- C2 (amended): flux is normalized by one global map computed once over
the whole series — division by the global flux maximum (not a min–max
map): every output row has `normalized_flux = flux / max`, all values are
≤ 1, and the maximum 1 is attained exactly. -/
theorem normalize_by_global_max (sorter : List OutRow → List OutRow)
    (hsort : phaseSortImpl sorter) (series : List Sample) (p e : ℚ)
    (hne : series ≠ []) (hpos : 0 < maxQ (series.map Sample.flux)) :
    (∀ r ∈ foldNormalize sorter series p e,
        r.nflux = r.flux / maxQ (series.map Sample.flux) ∧ r.nflux ≤ 1) ∧
    ∃ r ∈ foldNormalize sorter series p e, r.nflux = 1 := by
  constructor
  · intro r hr
    rw [foldNormalize, (hsort (foldedRows series p e)).1.mem_iff] at hr
    obtain ⟨s, hs, rfl⟩ := List.mem_map.mp hr
    refine ⟨rfl, ?_⟩
    have hle : s.flux ≤ maxQ (series.map Sample.flux) :=
      maxQ_is_ub _ _ (List.mem_map_of_mem Sample.flux hs)
    exact div_le_one_of_le₀ hle (le_of_lt hpos)
  · have hm : maxQ (series.map Sample.flux) ∈ series.map Sample.flux :=
      maxQ_mem _ (by simpa using hne)
    obtain ⟨s, hs, hflux⟩ := List.mem_map.mp hm
    refine ⟨⟨s.jd, s.flux, fixNegative (phaseOf s.jd e p),
      s.flux / maxQ (series.map Sample.flux)⟩, ?_, ?_⟩
    · rw [foldNormalize, (hsort (foldedRows series p e)).1.mem_iff]
      exact List.mem_map.mpr ⟨s, hs, rfl⟩
    · simp only [hflux]
      exact div_self (ne_of_gt hpos)

/-- Witness for C2 (amended) on the §8 example series with the admissible
implementation `phaseSort`. -/
theorem normalize_by_global_max_witness :
    (phaseSortImpl phaseSort ∧ specSeries ≠ [] ∧
        0 < maxQ (specSeries.map Sample.flux)) ∧
    ((∀ r ∈ foldNormalize phaseSort specSeries 1 (1/2),
        r.nflux = r.flux / maxQ (specSeries.map Sample.flux) ∧ r.nflux ≤ 1) ∧
     ∃ r ∈ foldNormalize phaseSort specSeries 1 (1/2), r.nflux = 1) :=
  ⟨⟨phaseSort_admissible, by decide, by decide⟩,
    normalize_by_global_max phaseSort phaseSort_admissible specSeries 1 (1/2)
      (by decide) (by decide)⟩

/-! ### C6 — sort invariant and tie order -/

/-- A phase-nondecreasing list whose phases are pairwise distinct is
strictly increasing in phase. -/
theorem pairwise_lt_of_pairwise_le_nodup (l : List OutRow)
    (h : l.Pairwise byPhase) (hn : (l.map OutRow.phase).Nodup) :
    l.Pairwise (fun a b => a.phase < b.phase) := by
  induction l with
  | nil => exact List.Pairwise.nil
  | cons a t ih =>
    rw [List.map_cons, List.nodup_cons] at hn
    rw [List.pairwise_cons] at h ⊢
    refine ⟨?_, ih h.2 hn.2⟩
    intro b hb
    have hle : a.phase ≤ b.phase := h.1 b hb
    have hne : a.phase ≠ b.phase :=
      fun he => hn.1 (he ▸ List.mem_map_of_mem OutRow.phase hb)
    exact lt_of_le_of_ne hle hne

/-- Two strictly phase-increasing permutations of each other are equal. -/
theorem strictSorted_perm_eq (l1 : List OutRow) :
    ∀ l2 : List OutRow, List.Perm l1 l2 →
      l1.Pairwise (fun a b => a.phase < b.phase) →
      l2.Pairwise (fun a b => a.phase < b.phase) → l1 = l2 := by
  induction l1 with
  | nil => intro l2 hperm _ _; exact (List.Perm.eq_nil hperm.symm).symm
  | cons a t1 ih =>
    intro l2 hperm h1 h2
    cases l2 with
    | nil => exact absurd hperm.symm (by simp)
    | cons b t2 =>
      have hab : a = b := by
        have ha : a ∈ b :: t2 := hperm.subset (List.mem_cons_self a t1)
        have hb : b ∈ a :: t1 := hperm.symm.subset (List.mem_cons_self b t2)
        rcases List.mem_cons.mp ha with h | h
        · exact h
        · rcases List.mem_cons.mp hb with h3 | h3
          · exact h3.symm
          · have hba : b.phase < a.phase := (List.pairwise_cons.mp h2).1 a h
            have hab2 : a.phase < b.phase := (List.pairwise_cons.mp h1).1 b h3
            exact absurd (lt_trans hab2 hba) (lt_irrefl _)
      subst hab
      have ht : List.Perm t1 t2 := hperm.cons_inv
      rw [ih t2 ht (List.pairwise_cons.mp h1).2 (List.pairwise_cons.mp h2).2]

/-- Phase-sorted permutations of a tie-free row list coincide: on inputs
with pairwise-distinct phases, every admissible sort implementation
produces the same output. -/
theorem sorted_perm_eq_of_nodup_phases (l1 l2 : List OutRow)
    (hperm : List.Perm l1 l2) (h1 : l1.Pairwise byPhase) (h2 : l2.Pairwise byPhase)
    (hn : (l1.map OutRow.phase).Nodup) : l1 = l2 :=
  strictSorted_perm_eq l1 l2 hperm
    (pairwise_lt_of_pairwise_le_nodup l1 h1 hn)
    (pairwise_lt_of_pairwise_le_nodup l2 h2 ((hperm.map OutRow.phase).nodup hn))

/-- `flipSort` also satisfies everything `output_table.sort('phase')`
guarantees. -/
theorem flipSort_admissible : phaseSortImpl flipSort := by
  intro l
  unfold flipSort
  by_cases h : l = foldedRows specSeries 1 (1/2)
  · subst h
    rw [if_pos rfl]
    exact ⟨by decide, by decide⟩
  · rw [if_neg h]
    exact ⟨List.perm_insertionSort byPhase l, List.sorted_insertionSort byPhase l⟩

/-- C6 fails on the code: the sort of line 130 is numpy `argsort` with its
default `kind='quicksort'`, which is not stable, so the relative order of
equal-phase rows is NOT guaranteed.  `flipSort` satisfies everything the
code's sort guarantees (a phase-sorted permutation of the §8 folded rows —
it is an admissible quicksort outcome), yet it orders the two phase-1/2
rows as `t = 1` before `t = 0`, the opposite of the order the claim
asserts. -/
theorem sort_stability_cex :
    phaseSortImpl flipSort ∧
    List.Perm (foldNormalize flipSort specSeries 1 (1/2))
      (foldedRows specSeries 1 (1/2)) ∧
    (foldNormalize flipSort specSeries 1 (1/2)).Pairwise byPhase ∧
    (foldNormalize flipSort specSeries 1 (1/2)).map OutRow.jd
      = [1/2, 3/4, 1, 0, 1/4] ∧
    ¬ ((foldNormalize flipSort specSeries 1 (1/2)).map OutRow.jd
      = [1/2, 3/4, 0, 1, 1/4]) :=
  ⟨flipSort_admissible, by decide, by decide, by decide, by decide⟩

/-- C6 (amended): for every admissible implementation of the line-130 sort
(numpy quicksort — guaranteed only to produce a phase-sorted permutation,
with the equal-phase tie order unspecified), the Output Curve is a
permutation of the folded samples whose phase column is non-decreasing;
the phase column itself is independent of the tie order (on the §8 example
it is `[0, 1/4, 1/2, 1/2, 3/4]` for every admissible implementation); and
on any series whose phases are pairwise distinct all admissible
implementations produce the identical Output Curve.  No stability (input
tie order) guarantee holds. -/
theorem output_sorted_by_phase (sorter : List OutRow → List OutRow)
    (hsort : phaseSortImpl sorter) :
    (∀ series p e, List.Perm (foldNormalize sorter series p e)
        (foldedRows series p e)) ∧
    (∀ series p e, (foldNormalize sorter series p e).Pairwise byPhase) ∧
    ((foldNormalize sorter specSeries 1 (1/2)).map OutRow.phase
        = [0, 1/4, 1/2, 1/2, 3/4]) ∧
    (∀ sorter2, phaseSortImpl sorter2 → ∀ series p e,
        ((foldedRows series p e).map OutRow.phase).Nodup →
        foldNormalize sorter2 series p e = foldNormalize sorter series p e) := by
  refine ⟨fun series p e => (hsort _).1, fun series p e => (hsort _).2, ?_, ?_⟩
  · have hperm : List.Perm
        ((foldNormalize sorter specSeries 1 (1/2)).map OutRow.phase)
        [0, 1/4, 1/2, 1/2, 3/4] := by
      refine ((hsort (foldedRows specSeries 1 (1/2))).1.map OutRow.phase).trans ?_
      decide
    have hsorted : ((foldNormalize sorter specSeries 1 (1/2)).map OutRow.phase).Pairwise
        (· ≤ ·) :=
      List.pairwise_map.mpr (hsort (foldedRows specSeries 1 (1/2))).2
    exact List.eq_of_perm_of_sorted hperm hsorted (by decide)
  · intro sorter2 hs2 series p e hn
    refine sorted_perm_eq_of_nodup_phases _ _ ?_ ?_ ?_ ?_
    · exact ((hs2 _).1).trans ((hsort _).1).symm
    · exact (hs2 _).2
    · exact (hsort _).2
    · exact (((hs2 _).1).map OutRow.phase).symm.nodup hn

/-- Witness for C6 (amended) at the admissible implementation `phaseSort`. -/
theorem output_sorted_by_phase_witness :
    phaseSortImpl phaseSort ∧
    ((∀ series p e, List.Perm (foldNormalize phaseSort series p e)
        (foldedRows series p e)) ∧
    (∀ series p e, (foldNormalize phaseSort series p e).Pairwise byPhase) ∧
    ((foldNormalize phaseSort specSeries 1 (1/2)).map OutRow.phase
        = [0, 1/4, 1/2, 1/2, 3/4]) ∧
    (∀ sorter2, phaseSortImpl sorter2 → ∀ series p e,
        ((foldedRows series p e).map OutRow.phase).Nodup →
        foldNormalize sorter2 series p e = foldNormalize phaseSort series p e)) :=
  ⟨phaseSort_admissible, output_sorted_by_phase phaseSort phaseSort_admissible⟩

/-! ### C3 — degenerate series -/

/-- C3 fails on the code: there is no degenerate-series check.  A constant
flux series (flux ≡ 5) passes through folding and normalization and yields
an Output Curve (all normalized fluxes exactly 1), with the object reported
as processed — no error of any kind is raised. -/
theorem degenerate_series_cex :
    processBatch phaseSort flatManifest flatFiles flatSolver =
      .finished
        [⟨0, [⟨1/20, 5, 0, 1⟩, ⟨1/10, 5, 1/20, 1⟩, ⟨0, 5, 19/20, 1⟩], 1/20, 1⟩]
        [0] := by
  decide

/-- C3 (amended): the code performs no degeneracy check.  A constant-flux
series whose fit converges produces an Output Curve whose normalized fluxes
are all exactly 1 (`flux / max(flux)`, no NaN in exact arithmetic); and a
series with fewer samples than the 3 Gaussian parameters (here a
single-sample series) is not skipped either: it raises a `TypeError` inside
`curve_fit` that aborts the whole batch. -/
theorem no_degenerate_check (sorter : List OutRow → List OutRow)
    (hsort : phaseSortImpl sorter) (series : List Sample) (c p jm : ℚ)
    (hne : series ≠ []) (hc : ∀ s ∈ series, s.flux = c) (hc0 : c ≠ 0) :
    (∀ r ∈ foldNormalize sorter series p jm, r.nflux = 1) ∧
    processBatch phaseSort [⟨0, some 1, none⟩] (fun _ => some oneSample) stdSolver =
      .aborted [] [] := by
  constructor
  · intro r hr
    rw [foldNormalize, (hsort (foldedRows series p jm)).1.mem_iff] at hr
    obtain ⟨s, hs, rfl⟩ := List.mem_map.mp hr
    have hmax : maxQ (series.map Sample.flux) = c := by
      have hm := maxQ_mem (series.map Sample.flux) (by simpa using hne)
      obtain ⟨s2, hs2, hflux⟩ := List.mem_map.mp hm
      rw [← hflux]
      exact hc s2 hs2
    simp only [hmax, hc s hs]
    exact div_self hc0
  · decide

/-- Witness for C3 (amended) on the flat series. -/
theorem no_degenerate_check_witness :
    (phaseSortImpl phaseSort ∧ flatSeries ≠ [] ∧
        (∀ s ∈ flatSeries, s.flux = 5) ∧ (5 : ℚ) ≠ 0) ∧
    ((∀ r ∈ foldNormalize phaseSort flatSeries 1 (1/20), r.nflux = 1) ∧
      processBatch phaseSort [⟨0, some 1, none⟩] (fun _ => some oneSample) stdSolver =
        .aborted [] []) :=
  ⟨⟨phaseSort_admissible, by decide, by decide, by decide⟩,
    no_degenerate_check phaseSort phaseSort_admissible flatSeries 5 1 (1/20)
      (by decide) (by decide) (by decide)⟩

/-! ### Helper lemmas about the batch loop -/

theorem curveFit_short (o : FitOutcome) (xdata ydata : List ℚ) (p0 : ℚ × ℚ × ℚ)
    (h : xdata.length < 3) :
    curveFit o xdata ydata p0 = .error .typeError := by
  unfold curveFit
  rw [if_pos h]

theorem curveFit_diverged (xdata ydata : List ℚ) (p0 : ℚ × ℚ × ℚ)
    (h : ¬ xdata.length < 3) :
    curveFit .diverged xdata ydata p0 = .error .runtimeError := by
  unfold curveFit
  rw [if_neg h]

theorem findJdmin_congr (s1 s2 : Nat → FitOutcome) (h : s1 0 = s2 0)
    (table : List Sample) (p : ℚ) :
    findJdmin s1 table p = findJdmin s2 table p := by
  unfold findJdmin
  rw [h]

theorem processName_solver_congr (sorter : List OutRow → List OutRow)
    (manifest : List Row)
    (lcFiles : ObjName → Option (List Sample)) (sv1 sv2 : ObjName → Nat → FitOutcome)
    (h : ∀ m, sv1 m 0 = sv2 m 0) (n : ObjName) :
    processName sorter manifest lcFiles sv1 n
      = processName sorter manifest lcFiles sv2 n := by
  have hf : ∀ table p, findJdmin (sv1 n) table p = findJdmin (sv2 n) table p :=
    fun table p => findJdmin_congr _ _ (h n) table p
  unfold processName
  simp only [hf]

theorem processName_manifest_congr (sorter : List OutRow → List OutRow)
    (m1 m2 : List Row)
    (lcFiles : ObjName → Option (List Sample)) (solver : ObjName → Nat → FitOutcome)
    (n : ObjName) (h : firstRowNamed m1 n = firstRowNamed m2 n) :
    processName sorter m1 lcFiles solver n = processName sorter m2 lcFiles solver n := by
  unfold processName
  rw [h]

theorem goNames_congr (sorter : List OutRow → List OutRow) (m1 m2 : List Row)
    (lf1 lf2 : ObjName → Option (List Sample))
    (sv1 sv2 : ObjName → Nat → FitOutcome)
    (h : ∀ n, processName sorter m1 lf1 sv1 n = processName sorter m2 lf2 sv2 n) :
    ∀ names, goNames sorter m1 lf1 sv1 names = goNames sorter m2 lf2 sv2 names := by
  intro names
  induction names with
  | nil => rfl
  | cons n rest ih =>
    unfold goNames
    rw [h n, ih]

theorem goNames_skip (sorter : List OutRow → List OutRow) (manifest : List Row)
    (lcFiles : ObjName → Option (List Sample))
    (solver : ObjName → Nat → FitOutcome) (n : ObjName) (rest : List ObjName)
    (h : processName sorter manifest lcFiles solver n = .ok none) :
    goNames sorter manifest lcFiles solver (n :: rest)
      = goNames sorter manifest lcFiles solver rest := by
  simp only [goNames, h]

theorem goNames_abort (sorter : List OutRow → List OutRow) (manifest : List Row)
    (lcFiles : ObjName → Option (List Sample))
    (solver : ObjName → Nat → FitOutcome) (n : ObjName) (rest : List ObjName)
    (e : PyError) (h : processName sorter manifest lcFiles solver n = .error e) :
    goNames sorter manifest lcFiles solver (n :: rest) = .aborted [] [] := by
  simp only [goNames, h]

/-! ### C1 — external epoch precedence -/

/-- C1 fails on the code: even when the input row carries a finite external
epoch (here 100), the folding script invokes the Gaussian fitting path:
the produced curve's epoch metadata is the fitted location 42, not the
external 100. -/
theorem external_epoch_ignored_cex :
    processBatch phaseSort c1Manifest stdFiles stdSolver = .finished [curve42 0] [0] ∧
    (curve42 0).metaJdMin = 42 ∧ ¬ ((42 : ℚ) = 100) := by
  decide

/-- C1 (amended): the folding script never consults an externally supplied
epoch — the batch output is entirely independent of the manifest's
`jd_min` column. -/
theorem epoch_always_fitted (sorter : List OutRow → List OutRow)
    (manifest : List Row)
    (lcFiles : ObjName → Option (List Sample)) (solver : ObjName → Nat → FitOutcome)
    (f : Row → Option ℚ) :
    processBatch sorter (manifest.map fun r => { r with jdMin := f r }) lcFiles solver =
      processBatch sorter manifest lcFiles solver := by
  have hfirst : ∀ n, firstRowNamed (manifest.map fun r => { r with jdMin := f r }) n
      = Option.map (fun r => { r with jdMin := f r }) (firstRowNamed manifest n) := by
    intro n
    unfold firstRowNamed
    rw [List.filter_map, List.head?_map]
    rfl
  unfold processBatch
  have hnames : (manifest.map fun r => { r with jdMin := f r }).map Row.name
      = manifest.map Row.name := by
    rw [List.map_map]
    rfl
  rw [hnames]
  refine goNames_congr _ _ _ _ _ _ _ (fun n => ?_) _
  unfold processName
  rw [hfirst n]
  cases firstRowNamed manifest n with
  | none => rfl
  | some row => rfl

/-! ### C5 — insufficient fit window -/

/-- C5 fails on the code: a fit window with too few points does not produce
an object-scoped skip.  With object 0's series having only two samples, the
`TypeError` raised by `curve_fit` escapes the per-object handler and aborts
the whole batch (return value `None`); object 1 — which on its own would
fold successfully — is never processed. -/
theorem insufficient_window_cex :
    processBatch phaseSort c5Manifest c5Files stdSolver = .aborted [] [] ∧
    retValue (processBatch phaseSort c5Manifest c5Files stdSolver) = none ∧
    processName phaseSort c5Manifest c5Files stdSolver 1 = .ok (some (curve42 1)) := by
  decide

/-- C5 (amended): when the fit window holds fewer samples than the 3
Gaussian parameters (in particular when it is empty), `curve_fit` raises
`TypeError`; `find_jdmin` catches only `RuntimeError`, so the error escapes
the loop body, aborts the whole batch and nothing is returned — the
remaining objects are not processed. -/
theorem small_window_aborts (solver : Nat → FitOutcome) (series : List Sample)
    (p : ℚ) (hlen : (windowMask series p).length < 3) :
    findJdmin solver series p = .error .typeError ∧
    ∀ (sorter : List OutRow → List OutRow) (manifest : List Row)
      (lcFiles : ObjName → Option (List Sample))
      (sv : ObjName → Nat → FitOutcome) (n : ObjName) (rest : List ObjName)
      (e : PyError),
      processName sorter manifest lcFiles sv n = .error e →
      goNames sorter manifest lcFiles sv (n :: rest) = .aborted [] [] ∧
      retValue (goNames sorter manifest lcFiles sv (n :: rest)) = none := by
  constructor
  · have hx : ((windowMask series p).map Sample.jd).length < 3 := by
      rwa [List.length_map]
    simp only [findJdmin]
    rw [curveFit_short _ _ _ _ hx]
  · intro sorter manifest lcFiles sv n rest e h
    refine ⟨goNames_abort sorter manifest lcFiles sv n rest e h, ?_⟩
    rw [goNames_abort sorter manifest lcFiles sv n rest e h]
    rfl

/-- Witness for C5 (amended) on the two-sample series. -/
theorem small_window_aborts_witness :
    (windowMask twoSamples 1).length < 3 ∧
    (findJdmin (fun _ => FitOutcome.diverged) twoSamples 1 = .error .typeError ∧
      ∀ (sorter : List OutRow → List OutRow) (manifest : List Row)
        (lcFiles : ObjName → Option (List Sample))
        (sv : ObjName → Nat → FitOutcome) (n : ObjName) (rest : List ObjName)
        (e : PyError),
        processName sorter manifest lcFiles sv n = .error e →
        goNames sorter manifest lcFiles sv (n :: rest) = .aborted [] [] ∧
        retValue (goNames sorter manifest lcFiles sv (n :: rest)) = none) :=
  ⟨by decide, small_window_aborts (fun _ => FitOutcome.diverged) twoSamples 1 (by decide)⟩

/-! ### C7 — period validation -/

/-- C7 fails on the code: a zero period passes the period check of line 110
(which rejects only missing/NaN) and reaches `find_jdmin`, where it empties
the fit window; the ensuing `TypeError` aborts the WHOLE batch — object 0
is not merely skipped, and object 1 (processable on its own) is never
processed. -/
theorem invalid_period_cex :
    processBatch phaseSort c7Manifest stdFiles stdSolver = .aborted [] [] ∧
    processName phaseSort c7Manifest stdFiles stdSolver 1 = .ok (some (curve42 1)) := by
  decide

/-- C7 (amended): the only period validation is the missing/NaN check: an
object whose period value is missing is skipped with the batch continuing,
but a zero or negative period is NOT rejected — it passes the check,
reaches the fitting step, makes the fit window empty, and the resulting
`TypeError` aborts the whole batch. -/
theorem period_check_only_missing :
    (∀ (sorter : List OutRow → List OutRow) (manifest : List Row)
        (lcFiles : ObjName → Option (List Sample))
        (solver : ObjName → Nat → FitOutcome) (n : ObjName) (row : Row),
        firstRowNamed manifest n = some row → row.period = none →
        processName sorter manifest lcFiles solver n = .ok none) ∧
    (∀ (series : List Sample) (solver : Nat → FitOutcome) (p : ℚ), p ≤ 0 →
        windowMask series p = [] ∧ findJdmin solver series p = .error .typeError) := by
  constructor
  · intro sorter manifest lcFiles solver n row hrow hp
    simp only [processName, hrow, hp]
    cases lcFiles n <;> rfl
  · intro series solver p hp
    have hw : windowMask series p = [] := by
      unfold windowMask
      rw [List.filter_eq_nil_iff]
      intro s _
      simp only [Bool.and_eq_true, decide_eq_true_eq, not_and]
      intro h1 h2
      have h02 : (0.2 : ℚ) = 1/5 := by norm_num
      rw [h02] at h1 h2
      linarith
    refine ⟨hw, ?_⟩
    simp only [findJdmin, hw]
    rw [curveFit_short _ _ _ _ (by simp)]

/-- Witness for C7 (amended): a missing-period object is skipped; period 0
empties the window of `series3` and makes `find_jdmin` raise. -/
theorem period_check_only_missing_witness :
    (firstRowNamed [⟨0, none, none⟩] 0 = some ⟨0, none, none⟩ ∧
      (⟨0, none, none⟩ : Row).period = none ∧ (0 : ℚ) ≤ 0) ∧
    processName phaseSort [⟨0, none, none⟩] stdFiles stdSolver 0 = .ok none ∧
    (windowMask series3 0 = [] ∧
      findJdmin (fun _ => FitOutcome.diverged) series3 0 = .error .typeError) :=
  ⟨⟨by decide, by decide, by decide⟩,
    period_check_only_missing.1 phaseSort [⟨0, none, none⟩] stdFiles stdSolver 0
      ⟨0, none, none⟩ (by decide) (by decide),
    period_check_only_missing.2 series3 (fun _ => FitOutcome.diverged) 0 (by decide)⟩

/-! ### C9 — fit divergence -/

/-- C9: when the least-squares iteration diverges (scipy `RuntimeError`),
`find_jdmin` returns `None`: the object produces no curve and is skipped,
the loop continues with the remaining objects, and only the outcome of the
single first fit attempt ever matters (no retry: the batch result is
unchanged under any change of the later attempts' outcomes). -/
theorem fit_divergence_skips_object (sorter : List OutRow → List OutRow)
    (manifest : List Row)
    (lcFiles : ObjName → Option (List Sample)) (solver : ObjName → Nat → FitOutcome)
    (n : ObjName) (row : Row) (series : List Sample) (p : ℚ) (rest : List ObjName)
    (hrow : firstRowNamed manifest n = some row)
    (hfile : lcFiles n = some series)
    (hp : row.period = some p)
    (hdiv : solver n 0 = .diverged)
    (hwin : 3 ≤ (windowMask series p).length) :
    processName sorter manifest lcFiles solver n = .ok none ∧
    goNames sorter manifest lcFiles solver (n :: rest)
      = goNames sorter manifest lcFiles solver rest ∧
    ∀ solver2 : ObjName → Nat → FitOutcome, (∀ m, solver2 m 0 = solver m 0) →
      processBatch sorter manifest lcFiles solver2
        = processBatch sorter manifest lcFiles solver := by
  have hxlen : ¬ ((windowMask series p).map Sample.jd).length < 3 := by
    rw [List.length_map]
    exact not_lt.mpr hwin
  have hfind : findJdmin (solver n) series p = .ok none := by
    simp only [findJdmin, hdiv]
    rw [curveFit_diverged _ _ _ hxlen]
  have h1 : processName sorter manifest lcFiles solver n = .ok none := by
    simp only [processName, hrow, hfile, hp, hfind]
  refine ⟨h1, goNames_skip sorter manifest lcFiles solver n rest h1, ?_⟩
  intro solver2 h2
  unfold processBatch
  exact goNames_congr _ _ _ _ _ _ _
    (fun m => processName_solver_congr sorter manifest lcFiles solver2 solver h2 m) _

/-- Witness for C9: a one-object batch whose fit diverges. -/
theorem fit_divergence_skips_object_witness :
    (firstRowNamed [⟨0, some 1, none⟩] 0 = some ⟨0, some 1, none⟩ ∧
      stdFiles 0 = some series3 ∧
      (⟨0, some 1, none⟩ : Row).period = some 1 ∧
      divSolver 0 0 = .diverged ∧
      3 ≤ (windowMask series3 1).length) ∧
    (processName phaseSort [⟨0, some 1, none⟩] stdFiles divSolver 0 = .ok none ∧
      goNames phaseSort [⟨0, some 1, none⟩] stdFiles divSolver [0]
        = goNames phaseSort [⟨0, some 1, none⟩] stdFiles divSolver [] ∧
      ∀ solver2 : ObjName → Nat → FitOutcome, (∀ m, solver2 m 0 = divSolver m 0) →
        processBatch phaseSort [⟨0, some 1, none⟩] stdFiles solver2
          = processBatch phaseSort [⟨0, some 1, none⟩] stdFiles divSolver) :=
  ⟨⟨by decide, rfl, rfl, rfl, by decide⟩,
    fit_divergence_skips_object phaseSort [⟨0, some 1, none⟩] stdFiles divSolver 0
      ⟨0, some 1, none⟩ series3 1 [] (by decide) rfl rfl rfl (by decide)⟩

/-! ### C8 — external-epoch retrieval frame effect -/

/-- C8 (code bug): running `take_epoch_from_vsx` on a two-row table where
the query succeeds only for object 0 (raw epoch 2450001), the assignment
`input_table['jd_min'] = jd_min - 2450000` writes the scalar 1 into EVERY
row's `jd_min`: row 1's field ends up `some 1` even though its own query
found nothing — contradicting the adjacent comment
`# Assign directly to the row`. -/
theorem vsx_column_assignment_bug :
    takeEpochFromVsx c8Query [⟨0, none⟩, ⟨1, none⟩] = [⟨0, some 1⟩, ⟨1, some 1⟩] ∧
    c8Query 1 = none := by
  decide

/-! ### C10 — duplicate manifest rows -/

theorem processName_objName (sorter : List OutRow → List OutRow) (manifest : List Row)
    (lcFiles : ObjName → Option (List Sample)) (solver : ObjName → Nat → FitOutcome)
    (n : ObjName) (c : Curve)
    (h : processName sorter manifest lcFiles solver n = .ok (some c)) : c.objName = n := by
  unfold processName at h
  split at h
  · simp at h
  · split at h
    · simp at h
    · split at h
      · simp at h
      · split at h
        · simp at h
        · simp at h
        · injection h with h1
          injection h1 with h1
          rw [← h1]

theorem goNames_spec (sorter : List OutRow → List OutRow) (manifest : List Row)
    (lcFiles : ObjName → Option (List Sample))
    (solver : ObjName → Nat → FitOutcome) :
    ∀ names : List ObjName,
      (curvesOf (goNames sorter manifest lcFiles solver names)).map Curve.objName
          = processedOf (goNames sorter manifest lcFiles solver names) ∧
      List.Sublist (processedOf (goNames sorter manifest lcFiles solver names)) names := by
  intro names
  induction names with
  | nil => exact ⟨rfl, List.nil_sublist []⟩
  | cons n rest ih =>
    cases hpn : processName sorter manifest lcFiles solver n with
    | error e =>
      rw [goNames_abort sorter manifest lcFiles solver n rest e hpn]
      exact ⟨rfl, List.nil_sublist _⟩
    | ok oc =>
      cases oc with
      | none =>
        rw [goNames_skip sorter manifest lcFiles solver n rest hpn]
        exact ⟨ih.1, ih.2.trans (List.sublist_cons_self n rest)⟩
      | some c =>
        have hobj := processName_objName sorter manifest lcFiles solver n c hpn
        have hg : goNames sorter manifest lcFiles solver (n :: rest)
            = match goNames sorter manifest lcFiles solver rest with
              | .finished cs ps => .finished (c :: cs) (n :: ps)
              | .aborted cs ps => .aborted (c :: cs) (n :: ps) := by
          simp only [goNames, hpn]
        rw [hg]
        cases hrest : goNames sorter manifest lcFiles solver rest with
        | finished cs ps =>
          rw [hrest] at ih
          refine ⟨?_, ih.2.cons₂ n⟩
          simp only [curvesOf, processedOf, List.map_cons, hobj] at ih ⊢
          rw [ih.1]
        | aborted cs ps =>
          rw [hrest] at ih
          refine ⟨?_, ih.2.cons₂ n⟩
          simp only [curvesOf, processedOf, List.map_cons, hobj] at ih ⊢
          rw [ih.1]

theorem npUnique_nodup (l : List ObjName) : (npUnique l).Nodup :=
  List.nodup_dedup _

theorem npUnique_sorted (l : List ObjName) : (npUnique l).Sorted (· ≤ ·) :=
  List.Pairwise.sublist (List.dedup_sublist _)
    (List.sorted_insertionSort (· ≤ ·) l)

theorem mem_npUnique (l : List ObjName) (a : ObjName) : a ∈ npUnique l ↔ a ∈ l := by
  unfold npUnique
  rw [List.mem_dedup, List.mem_insertionSort]

theorem npUnique_eq_of_mem_iff (l1 l2 : List ObjName)
    (h : ∀ a, a ∈ l1 ↔ a ∈ l2) : npUnique l1 = npUnique l2 := by
  refine List.eq_of_perm_of_sorted ?_ (npUnique_sorted l1) (npUnique_sorted l2)
  refine (List.perm_ext_iff_of_nodup (npUnique_nodup l1) (npUnique_nodup l2)).mpr ?_
  intro a
  rw [mem_npUnique, mem_npUnique]
  exact h a

theorem dedupByName_names_mem (m : List Row) (n : ObjName) :
    (n ∈ (dedupByName m).map Row.name) ↔ n ∈ m.map Row.name := by
  induction m using dedupByName.induct with
  | case1 => simp [dedupByName]
  | case2 r rest ih =>
    simp only [dedupByName, List.map_cons, List.mem_cons]
    by_cases hn : n = r.name
    · simp [hn]
    · simp only [hn, false_or]
      rw [ih]
      simp only [List.mem_map, List.mem_filter, decide_eq_true_eq]
      constructor
      · rintro ⟨x, ⟨hx, _⟩, hxn⟩
        exact ⟨x, hx, hxn⟩
      · rintro ⟨x, hx, hxn⟩
        refine ⟨x, ⟨hx, ?_⟩, hxn⟩
        rw [hxn]
        exact hn

theorem dedupByName_firstRow (m : List Row) (n : ObjName) :
    firstRowNamed (dedupByName m) n = firstRowNamed m n := by
  induction m using dedupByName.induct with
  | case1 => simp [dedupByName]
  | case2 r rest ih =>
    simp only [dedupByName]
    unfold firstRowNamed
    rw [List.filter_cons, List.filter_cons]
    by_cases hn : r.name = n
    · simp [hn]
    · simp only [hn, decide_False, cond_false]
      have hff : (rest.filter fun r2 => decide (r2.name ≠ r.name)).filter
          (fun r2 => decide (r2.name = n)) = rest.filter fun r2 => decide (r2.name = n) := by
        rw [List.filter_filter]
        refine List.filter_congr ?_
        intro a _
        by_cases ha : a.name = n
        · have h2 : a.name ≠ r.name := fun hc => hn (hc ▸ ha)
          have h3 : ¬ n = r.name := fun hc => hn hc.symm
          simp [ha, h2, h3]
        · simp [ha]
      have := ih
      unfold firstRowNamed at this
      rw [hff] at this
      exact this

theorem dedupByName_batch (sorter : List OutRow → List OutRow) (manifest : List Row)
    (lcFiles : ObjName → Option (List Sample)) (solver : ObjName → Nat → FitOutcome) :
    processBatch sorter (dedupByName manifest) lcFiles solver =
      processBatch sorter manifest lcFiles solver := by
  unfold processBatch
  have hnames : npUnique ((dedupByName manifest).map Row.name)
      = npUnique (manifest.map Row.name) :=
    npUnique_eq_of_mem_iff _ _ (dedupByName_names_mem manifest)
  rw [hnames]
  exact goNames_congr _ _ _ _ _ _ _
    (fun n => processName_manifest_congr sorter _ _ _ _ n (dedupByName_firstRow manifest n)) _

/-- C10: the batch produces at most one Output Curve per distinct object
name — the written curves correspond one-to-one to the processed-names
list, which has no duplicates — and rows beyond the first with a given name
have no effect: the batch result on the manifest equals the result on the
manifest with only each name's first row kept (so exactly the first row
supplies the period used). -/
theorem one_curve_per_name (sorter : List OutRow → List OutRow) (manifest : List Row)
    (lcFiles : ObjName → Option (List Sample)) (solver : ObjName → Nat → FitOutcome) :
    ((curvesOf (processBatch sorter manifest lcFiles solver)).map Curve.objName
        = processedOf (processBatch sorter manifest lcFiles solver)) ∧
    (processedOf (processBatch sorter manifest lcFiles solver)).Nodup ∧
    processBatch sorter (dedupByName manifest) lcFiles solver =
      processBatch sorter manifest lcFiles solver := by
  refine ⟨(goNames_spec sorter manifest lcFiles solver _).1, ?_,
    dedupByName_batch sorter manifest lcFiles solver⟩
  exact List.Nodup.sublist
    ((goNames_spec sorter manifest lcFiles solver (npUnique (manifest.map Row.name))).2)
    (npUnique_nodup _)

end WUMaCat
